import Mathlib

/-!
Shallow embedding of the UDP channel reactors of the vnt repository
(`src/vnt/src/channel/udp_channel.rs`).

The embedding models:
- `RouteKey` and the handler invocation records;
- the receive-drain loop shared by both reactors (`drainRecv`);
- the Main Reactor's registration phase (`mainRegister`, from
  `main_udp_listen0` lines 174-181) and its per-event handling
  (`mainHandleEvent`, lines 186-208);
- the Sub Reactor's per-event handling (`subHandleEvent`, lines 77-133),
  including the control-channel drain (`drainChannel`), the `None` branch
  (`deregisterAll`) and the `Some(list)` branch (`registerSockets`);
- the shutdown coordinator, modelled from the spec since `util::StopManager`
  is not part of the given sources.

Sockets are modelled as an id together with a trace of `recv_from` outcomes:
a non-blocking socket yields each queued datagram in order and reports
would-block when the queue is exhausted. Fallible mio operations
(`try_clone`, `set_nonblocking`, `register`, `deregister`) are driven by
oracles mapping a socket id to an optional error, so that both the
all-success and the failure paths of the source are represented.
-/

namespace VntUdp

/-- A datagram source endpoint (`SocketAddr`). -/
structure SocketAddr where
  host : Nat
  port : Nat
deriving DecidableEq, Repr

/-- `RouteKey`: the routing identifier attached to every received datagram.
The struct itself lives in `channel/mod.rs` (not among the given sources);
its fields follow the spec (§3) and the constructor calls visible in
`udp_channel.rs`. -/
structure RouteKey where
  is_stream : Bool
  index : Nat
  peer_address : SocketAddr
deriving DecidableEq, Repr

/-- `RouteKey::new(is_stream, index, peer_address)`. -/
def RouteKey.new (s : Bool) (index : Nat) (addr : SocketAddr) : RouteKey :=
  ⟨s, index, addr⟩

/-- One outcome of a `recv_from` call on a non-blocking socket: either a
datagram (payload bytes and source address) or an error, flagged by whether
its kind is `WouldBlock`. -/
inductive RecvResult where
  | ok (payload : List Nat) (addr : SocketAddr)
  | err (wouldBlock : Bool)
deriving DecidableEq, Repr

/-- A UDP socket: an identity plus the trace of `recv_from` outcomes it will
produce; once the trace is exhausted the socket reports would-block. -/
structure UdpSocket where
  sid : Nat
  recvQueue : List RecvResult
deriving DecidableEq, Repr

/-- One handler invocation: `recv_handler.handle(&mut buf[..len], key, &context)`
recorded as the payload slice and the `RouteKey`. -/
structure HandlerCall where
  payload : List Nat
  key : RouteKey
deriving DecidableEq, Repr

/-- `const NOTIFY: Token = Token(0)`. -/
def NOTIFY : Nat := 0

/-- The inner `loop { match udp_socket.recv_from(&mut buf) ... }` shared by
both reactors (lines 114-130 and 191-207): deliver each received datagram to
the handler with `RouteKey::new(false, index, addr)`, log (count) any error
whose kind is not would-block and continue, break on would-block.
Returns the handler calls in order, the number of logged errors, and the
unconsumed tail of the trace. -/
def drainRecv (index : Nat) : List RecvResult → List HandlerCall × Nat × List RecvResult
  | [] => ([], 0, [])
  | .ok payload addr :: rest =>
    let r := drainRecv index rest
    (⟨payload, RouteKey.new false index addr⟩ :: r.1, r.2.1, r.2.2)
  | .err true :: rest => ([], 0, rest)
  | .err false :: rest =>
    let r := drainRecv index rest
    (r.1, r.2.1 + 1, r.2.2)

/-- How a reactor iteration ends: keep looping, `return Ok(())`,
`return Err(e)` (the `?` operator), or a Rust panic (out-of-bounds index). -/
inductive StepOut (σ : Type) where
  | cont (st : σ)
  | exitOk (st : σ)
  | exitErr (st : σ) (e : Nat)
  | panicked (st : σ)
deriving DecidableEq, Repr

/-! ### Main Reactor -/

/-- Main Reactor state: the `udps` vector built at registration, the handler
calls made so far, and the number of logged errors. -/
structure MainState where
  udps : List UdpSocket
  calls : List HandlerCall
  errLogs : Nat
deriving DecidableEq, Repr

/-- The registration loop of `main_udp_listen0` (lines 174-181): for the
socket at position `index`, `try_clone()?`, `set_nonblocking(true)?`, then
`register(..., Token(index + 1), READABLE)?`; each `?` propagates the error.
The oracles `cloneErr`, `nbErr`, `regErr` give the error (if any) each
operation reports for a given socket id. On success, returns the list of
(token, socket) registrations in order. -/
def mainRegister (cloneErr nbErr regErr : Nat → Option Nat) :
    List UdpSocket → Nat → Except Nat (List (Nat × UdpSocket))
  | [], _ => .ok []
  | udp :: rest, index =>
    match cloneErr udp.sid with
    | some e => .error e
    | none =>
      match nbErr udp.sid with
      | some e => .error e
      | none =>
        match regErr udp.sid with
        | some e => .error e
        | none =>
          match mainRegister cloneErr nbErr regErr rest (index + 1) with
          | .error e => .error e
          | .ok tl => .ok ((index + 1, udp) :: tl)

/-- Handling of one readiness event in `main_udp_listen0` (lines 186-208):
the NOTIFY token returns `Ok(())`; any other token is mapped to
`index = token - 1` and `udps[index]` is drained (an out-of-range index
would panic in Rust). -/
def mainHandleEvent (st : MainState) (token : Nat) : StepOut MainState :=
  if token = NOTIFY then .exitOk st
  else
    let index := token - 1
    match st.udps[index]? with
    | none => .panicked st
    | some u =>
      let r := drainRecv index u.recvQueue
      .cont { st with
        udps := st.udps.set index { u with recvQueue := r.2.2 },
        calls := st.calls ++ r.1,
        errLogs := st.errLogs + r.2.1 }

/-! ### Sub Reactor -/

/-- Sub Reactor state: `read_map` (the `HashMap<Token, UdpSocket>` as an
association list), the socket ids passed to `register` and to `deregister`
in order, the handler calls, and the number of logged errors. -/
structure SubState where
  readMap : List (Nat × UdpSocket)
  regCalls : List Nat
  deregCalls : List Nat
  calls : List HandlerCall
  errLogs : Nat
deriving DecidableEq, Repr

/-- The Sub Reactor's initial state: empty map, no effects yet. -/
def emptySub : SubState := ⟨[], [], [], [], 0⟩

/-- `HashMap::insert`: the new binding replaces any existing binding of the
same token. -/
def mapInsert (k : Nat) (v : UdpSocket) (m : List (Nat × UdpSocket)) :
    List (Nat × UdpSocket) :=
  (k, v) :: m.filter (fun p => p.1 != k)

/-- `HashMap::get`. -/
def mapGet (k : Nat) (m : List (Nat × UdpSocket)) : Option UdpSocket :=
  (m.find? (fun p => p.1 == k)).map Prod.snd

/-- The `Some(socket_list)` branch (lines 94-107): for the socket at position
`index` in the list, register it under `Token(index + context.channel_num())`
(a failure propagates via `?`) and insert it into `read_map`. -/
def registerSockets (channelNum : Nat) (regErr : Nat → Option Nat) :
    SubState → List UdpSocket → Nat → Except Nat SubState
  | st, [], _ => .ok st
  | st, udp :: rest, index =>
    match regErr udp.sid with
    | some e => .error e
    | none =>
      registerSockets channelNum regErr
        { st with
          readMap := mapInsert (index + channelNum) udp st.readMap,
          regCalls := st.regCalls ++ [udp.sid] }
        rest (index + 1)

/-- The `None` branch (lines 86-93): `read_map.drain()` deregisters every
socket in the map — a deregistration error (oracle `deregErr`) is logged and
the loop continues — and leaves the map empty. -/
def deregisterAll (deregErr : Nat → Bool) (st : SubState) : SubState :=
  { st with
    readMap := [],
    deregCalls := st.deregCalls ++ st.readMap.map (fun p => p.2.sid),
    errLogs := st.errLogs + (st.readMap.filter (fun p => deregErr p.2.sid)).length }

/-- Apply one control-channel message (lines 85-108). -/
def applyMsg (channelNum : Nat) (regErr : Nat → Option Nat) (deregErr : Nat → Bool)
    (st : SubState) : Option (List UdpSocket) → Except Nat SubState
  | none => .ok (deregisterAll deregErr st)
  | some socketList => registerSockets channelNum regErr st socketList 0

/-- The control-channel drain loop
`while let Ok(option) = accept_receiver.try_recv()` (lines 84-109): apply
each queued message in order; a registration error aborts the drain and
propagates, leaving the rest of the queue unconsumed. Returns the result and
the unconsumed tail of the channel. -/
def drainChannel (channelNum : Nat) (regErr : Nat → Option Nat) (deregErr : Nat → Bool) :
    SubState → List (Option (List UdpSocket)) →
      Except Nat SubState × List (Option (List UdpSocket))
  | st, [] => (.ok st, [])
  | st, msg :: rest =>
    match applyMsg channelNum regErr deregErr st msg with
    | .error e => (.error e, rest)
    | .ok st' => drainChannel channelNum regErr deregErr st' rest

/-- The capacity of the control channel: `sync_channel(64)` (line 39). -/
def controlChannelCapacity : Nat := 64

/-- Specification-side restatement of the drain: apply every message of the
channel in enqueue order (`List.foldlM` over `Except`). Used to compare the
source's drain loop against the spec's "applying each in order". -/
def applyAll (channelNum : Nat) (regErr : Nat → Option Nat) (deregErr : Nat → Bool)
    (st : SubState) (chan : List (Option (List UdpSocket))) : Except Nat SubState :=
  chan.foldlM (applyMsg channelNum regErr deregErr) st

/-- Handling of one readiness event in `sub_udp_listen0` (lines 77-133).
`isStop` and `isAddSocket` are the values read from the notifier's flags
(`accept_notify.is_stop()`, `accept_notify.is_add_socket()`): on the NOTIFY
token, stop is checked first and returns `Ok(())`; otherwise an update intent
drains the control channel (an error propagating as `return Err`); any other
token is looked up in `read_map` and drained if present, silently skipped if
absent. Returns the step outcome and the remaining channel contents. -/
def subHandleEvent (channelNum : Nat) (regErr : Nat → Option Nat) (deregErr : Nat → Bool)
    (isStop isAddSocket : Bool) (st : SubState)
    (chan : List (Option (List UdpSocket))) (token : Nat) :
    StepOut SubState × List (Option (List UdpSocket)) :=
  if token = NOTIFY then
    if isStop then (.exitOk st, chan)
    else if isAddSocket then
      match drainChannel channelNum regErr deregErr st chan with
      | (.ok st', rest) => (.cont st', rest)
      | (.error e, rest) => (.exitErr st e, rest)
    else (.cont st, chan)
  else
    match mapGet token st.readMap with
    | none => (.cont st, chan)
    | some u =>
      let r := drainRecv token u.recvQueue
      (.cont { st with
        readMap := mapInsert token { u with recvQueue := r.2.2 } st.readMap,
        calls := st.calls ++ r.1,
        errLogs := st.errLogs + r.2.1 }, chan)

/-! ### Shutdown coordinator -/

/-- The cleanup callbacks registered in `udp_channel.rs`: the Sub Reactor's
listener fires its notifier's stop (`waker.stop()`, lines 44-48); the Main
Reactor's listener wakes its poll (`waker.wake()`, lines 150-154). -/
inductive Callback where
  | fireSubStop
  | wakeMain
deriving DecidableEq, Repr

/-- Observable effects of the cleanup callbacks: whether the sub notifier's
stop flag has been set, whether each reactor's waker has fired, and the
callbacks run so far, in order. -/
structure SystemState where
  subStopFlag : Bool
  subWoken : Bool
  mainWoken : Bool
  ran : List Callback
deriving DecidableEq, Repr

/-- Modelled from the spec: running one cleanup callback.
`AcceptNotify::stop` (source in `channel/notify.rs`, not among the given
sources) "sets the stop flag and fires the wake primitive" (§4.4); the main
listener's `Waker::wake` only wakes. -/
def runCallback (s : SystemState) : Callback → SystemState
  | .fireSubStop =>
    { s with subStopFlag := true, subWoken := true, ran := s.ran ++ [.fireSubStop] }
  | .wakeMain => { s with mainWoken := true, ran := s.ran ++ [.wakeMain] }

/-- Modelled from the spec: `StopManager` (source in `util`, not among the
given sources) keeps a registry of named cleanup callbacks, and
`stop_all` "triggers every registered callback" (§6, §4.5). -/
def stopAll (registry : List Callback) (s : SystemState) : SystemState :=
  registry.foldl runCallback s

/-- The tail of both spawned reactor threads (lines 53-58 and 157-163): after
the loop function returns — `Ok` or `Err` (the error being logged) — the
thread calls `worker.stop_all()`. Returns the system state after the cascade
and the number of errors logged by the thread body. -/
def reactorThreadFinish (loopResult : Except Nat Unit) (registry : List Callback)
    (s : SystemState) : SystemState × Nat :=
  (stopAll registry s, match loopResult with | .error _ => 1 | .ok _ => 0)

/-! ### Helper lemmas -/

theorem find_filter_ne (k t : Nat) (h : t ≠ k) (m : List (Nat × UdpSocket)) :
    (m.filter (fun p => p.1 != k)).find? (fun p => p.1 == t) =
      m.find? (fun p => p.1 == t) := by
  induction m with
  | nil => rfl
  | cons a m ih =>
    by_cases hak : a.1 = k
    · have hfa : (a.1 != k) = false := by simp [hak]
      have hta : (a.1 == t) = false := by
        simp only [beq_eq_false_iff_ne]
        omega
      simp [List.filter_cons, hfa, List.find?_cons, hta, ih]
    · have hfa : (a.1 != k) = true := by simp [hak]
      by_cases hat : a.1 = t
      · simp [List.filter_cons, hfa, List.find?_cons, hat, h]
      · have hta : (a.1 == t) = false := by simp [hat]
        simp [List.filter_cons, hfa, List.find?_cons, hta, ih]

theorem mapGet_mapInsert (k t : Nat) (v : UdpSocket) (m : List (Nat × UdpSocket)) :
    mapGet t (mapInsert k v m) = if t = k then some v else mapGet t m := by
  by_cases h : t = k
  · subst h
    simp [mapGet, mapInsert, List.find?_cons]
  · have hk : (k == t) = false := by
      simp only [beq_eq_false_iff_ne]
      omega
    simp [mapGet, mapInsert, List.find?_cons, hk, find_filter_ne k t h m, h]

theorem drainRecv_calls_index (i : Nat) (q : List RecvResult) :
    ∀ c ∈ (drainRecv i q).1, c.key.index = i := by
  induction q with
  | nil =>
    intro c hc
    simp [drainRecv] at hc
  | cons hd rest ih =>
    intro c hc
    cases hd with
    | ok p a =>
      simp only [drainRecv, List.mem_cons] at hc
      rcases hc with rfl | hc
      · rfl
      · exact ih c hc
    | err wb =>
      cases wb
      · simp only [drainRecv] at hc
        exact ih c hc
      · simp [drainRecv] at hc

theorem drainRecv_all_ok (i : Nat) (ds : List (List Nat × SocketAddr)) :
    drainRecv i (ds.map fun d => RecvResult.ok d.1 d.2) =
      (ds.map fun d => ⟨d.1, RouteKey.new false i d.2⟩, 0, []) := by
  induction ds with
  | nil => rfl
  | cons d ds ih => simp [drainRecv, ih]

theorem stopAll_cons (cb : Callback) (rest : List Callback) (s : SystemState) :
    stopAll (cb :: rest) s = stopAll rest (runCallback s cb) := rfl

theorem stopAll_flags_mono (registry : List Callback) (s : SystemState)
    (h1 : s.subStopFlag = true) (h2 : s.subWoken = true) :
    (stopAll registry s).subStopFlag = true ∧ (stopAll registry s).subWoken = true := by
  induction registry generalizing s with
  | nil => exact ⟨h1, h2⟩
  | cons cb rest ih =>
    rw [stopAll_cons]
    cases cb with
    | fireSubStop => exact ih (runCallback s .fireSubStop) rfl rfl
    | wakeMain => exact ih (runCallback s .wakeMain) h1 h2

theorem stopAll_mem_fireSubStop (registry : List Callback) (s : SystemState)
    (h : Callback.fireSubStop ∈ registry) :
    (stopAll registry s).subStopFlag = true ∧ (stopAll registry s).subWoken = true := by
  induction registry generalizing s with
  | nil => cases h
  | cons cb rest ih =>
    rw [stopAll_cons]
    rcases List.mem_cons.mp h with heq | hmem
    · subst heq
      exact stopAll_flags_mono rest (runCallback s .fireSubStop) rfl rfl
    · exact ih (runCallback s cb) hmem

theorem stopAll_ran (registry : List Callback) (s : SystemState) :
    (stopAll registry s).ran = s.ran ++ registry := by
  induction registry generalizing s with
  | nil => simp [stopAll]
  | cons cb rest ih =>
    rw [stopAll_cons, ih]
    cases cb <;> simp [runCallback]

theorem registerSockets_ok_mapGet (n : Nat) (re : Nat → Option Nat) (st' : SubState)
    (t : Nat) :
    ∀ (list : List UdpSocket) (st : SubState) (j : Nat),
      registerSockets n re st list j = .ok st' →
      mapGet t st'.readMap =
        if j + n ≤ t ∧ t < j + n + list.length then list.get? (t - (j + n))
        else mapGet t st.readMap := by
  intro list
  induction list with
  | nil =>
    intro st j h
    simp only [registerSockets] at h
    cases h
    have hc : ¬(j + n ≤ t ∧ t < j + n + ([] : List UdpSocket).length) := by
      simp only [List.length_nil]
      omega
    rw [if_neg hc]
  | cons u rest ih =>
    intro st j h
    simp only [registerSockets] at h
    cases hre : re u.sid with
    | some e => rw [hre] at h; exact Except.noConfusion h
    | none =>
      rw [hre] at h
      have hih := ih _ (j + 1) h
      dsimp only at hih
      rw [mapGet_mapInsert] at hih
      rw [hih]
      simp only [List.length_cons]
      split_ifs with hA hB hC hD hE
      · have ht : t - (j + n) = t - (j + 1 + n) + 1 := by omega
        rw [ht, List.get?_cons_succ]
      · exfalso; omega
      · have ht : t - (j + n) = 0 := by omega
        rw [ht, List.get?_cons_zero]
      · exfalso; omega
      · exfalso; omega
      · rfl

theorem mainRegister_ok_tokens (ce ne re : Nat → Option Nat) :
    ∀ (socks : List UdpSocket) (j : Nat) (regs : List (Nat × UdpSocket)),
      mainRegister ce ne re socks j = .ok regs →
      regs.map Prod.fst = (List.range socks.length).map (fun i => i + j + 1) ∧
      regs.map Prod.snd = socks := by
  intro socks
  induction socks with
  | nil =>
    intro j regs h
    simp only [mainRegister] at h
    cases h
    simp
  | cons u rest ih =>
    intro j regs h
    simp only [mainRegister] at h
    cases hce : ce u.sid with
    | some e => rw [hce] at h; exact Except.noConfusion h
    | none =>
      rw [hce] at h
      cases hne : ne u.sid with
      | some e => rw [hne] at h; exact Except.noConfusion h
      | none =>
        rw [hne] at h
        cases hre : re u.sid with
        | some e => rw [hre] at h; exact Except.noConfusion h
        | none =>
          rw [hre] at h
          cases hrec : mainRegister ce ne re rest (j + 1) with
          | error e => rw [hrec] at h; exact Except.noConfusion h
          | ok tl =>
            rw [hrec] at h
            cases h
            obtain ⟨h1, h2⟩ := ih (j + 1) tl hrec
            constructor
            · simp only [List.map_cons, h1, List.length_cons,
                List.range_succ_eq_map, List.map_map]
              congr 1
              · omega
              · apply List.map_congr_left
                intro i _
                simp only [Function.comp_apply]
                omega
            · simp [List.map_cons, h2]

/-! ### Claim theorems -/

/-- C4: dequeuing a `None` payload deregisters every socket currently in the
extra-socket map (its id is appended to the deregistration calls), empties
the map, and does so whatever state preceded it — always succeeding. -/
theorem cone_revert (channelNum : Nat) (regErr : Nat → Option Nat)
    (deregErr : Nat → Bool) (st : SubState) :
    ∃ st', applyMsg channelNum regErr deregErr st none = .ok st' ∧
      st'.readMap = [] ∧
      st'.deregCalls = st.deregCalls ++ st.readMap.map (fun p => p.2.sid) ∧
      st'.calls = st.calls :=
  ⟨deregisterAll deregErr st, rfl, rfl, rfl, rfl⟩

/-- C5: on a notifier wake with the stop flag set, the sub reactor returns
`Ok(())` immediately — the state is untouched and the control channel is not
drained, even if the update flag is also set. -/
theorem stop_precedence (channelNum : Nat) (regErr : Nat → Option Nat)
    (deregErr : Nat → Bool) (isAddSocket : Bool) (st : SubState)
    (chan : List (Option (List UdpSocket))) :
    subHandleEvent channelNum regErr deregErr true isAddSocket st chan NOTIFY =
      (.exitOk st, chan) := rfl

/-- C10: a readiness event whose token is neither NOTIFY nor a key of the
extra-socket map is silently skipped: the state (map, handler calls, error
logs) and the channel are unchanged and the loop continues. -/
theorem unknown_token_skipped (channelNum : Nat) (regErr : Nat → Option Nat)
    (deregErr : Nat → Bool) (isStop isAddSocket : Bool) (st : SubState)
    (chan : List (Option (List UdpSocket))) (token : Nat)
    (h0 : token ≠ NOTIFY) (h1 : mapGet token st.readMap = none) :
    subHandleEvent channelNum regErr deregErr isStop isAddSocket st chan token =
      (.cont st, chan) := by
  simp [subHandleEvent, h0, h1]

/-- Witness for C10 at a concrete unregistered token. -/
theorem unknown_token_skipped_witness :
    subHandleEvent 2 (fun _ => none) (fun _ => false) false false emptySub [] 7 =
      (.cont emptySub, []) :=
  unknown_token_skipped 2 (fun _ => none) (fun _ => false) false false emptySub [] 7
    (by decide) rfl

/-- C2 counterexample: with `channel_num() = 2`, enqueueing
`Some([a, b])` (ids 10, 11) then `Some([c])` (id 12) and draining once leaves
TWO sockets in the map — `c` overwrote `a` at token 2 — not the three the
claim asserts; socket `a` (id 10) is no longer present. -/
theorem mode_switch_overwrite_cex :
    (drainChannel 2 (fun _ => none) (fun _ => false) emptySub
        [some [⟨10, []⟩, ⟨11, []⟩], some [⟨12, []⟩]]).1 =
      .ok ⟨[(2, ⟨12, []⟩), (3, ⟨11, []⟩)], [10, 11, 12], [], [], 0⟩ ∧
    ([(2, (⟨12, []⟩ : UdpSocket)), (3, ⟨11, []⟩)].length ≠ 3 ∧
      mapGet 2 [(2, (⟨12, []⟩ : UdpSocket)), (3, ⟨11, []⟩)] ≠ some ⟨10, []⟩ ∧
      mapGet 3 [(2, (⟨12, []⟩ : UdpSocket)), (3, ⟨11, []⟩)] ≠ some ⟨10, []⟩) :=
  ⟨rfl, by decide, by decide, by decide⟩

/-- C2 amended: enqueueing `Some([a, b])` then `Some([c])` with no
intervening `None`, drained in one wake, leaves TWO sockets registered in
the map: `c` at token `0 + channel_num()` (overwriting `a`, whose map entry
is dropped) and `b` at token `1 + channel_num()`; all three registration
calls were made. -/
theorem mode_switch_coalescing_amended (n : Nat) (a b c : UdpSocket) :
    ∃ st, (drainChannel n (fun _ => none) (fun _ => false) emptySub
        [some [a, b], some [c]]).1 = .ok st ∧
      st.readMap = [(0 + n, c), (1 + n, b)] ∧
      st.regCalls = [a.sid, b.sid, c.sid] := by
  have hne1 : (((0 + n : Nat)) != 1 + n) = true := by
    simp only [bne_iff_ne, ne_eq]
    omega
  have hne2 : (((1 + n : Nat)) != 0 + n) = true := by
    simp only [bne_iff_ne, ne_eq]
    omega
  refine ⟨⟨[(0 + n, c), (1 + n, b)], [a.sid, b.sid, c.sid], [], [], 0⟩, ?_, rfl, rfl⟩
  simp [drainChannel, applyMsg, registerSockets, mapInsert, emptySub,
    List.filter_cons, hne1, hne2]

/-- C3: drain completeness. If a socket's trace holds N queued datagrams, the
drain loop delivers all N to the handler, once per datagram, with the exact
payload bytes, logging nothing; and on a readiness event for a data token,
each reactor performs exactly this drain, appending the handler calls in
order and stopping the inner loop only when would-block is reported. -/
theorem drain_completeness :
    (∀ (i : Nat) (ds : List (List Nat × SocketAddr)),
      drainRecv i (ds.map fun d => RecvResult.ok d.1 d.2) =
        (ds.map fun d => ⟨d.1, RouteKey.new false i d.2⟩, 0, [])) ∧
    (∀ (st : MainState) t u, t ≠ NOTIFY → st.udps[t - 1]? = some u →
      mainHandleEvent st t = .cont { st with
        udps := st.udps.set (t - 1) { u with recvQueue := (drainRecv (t - 1) u.recvQueue).2.2 },
        calls := st.calls ++ (drainRecv (t - 1) u.recvQueue).1,
        errLogs := st.errLogs + (drainRecv (t - 1) u.recvQueue).2.1 }) ∧
    (∀ n re de s a (st : SubState) chan t u, t ≠ NOTIFY → mapGet t st.readMap = some u →
      subHandleEvent n re de s a st chan t = (.cont { st with
        readMap := mapInsert t { u with recvQueue := (drainRecv t u.recvQueue).2.2 } st.readMap,
        calls := st.calls ++ (drainRecv t u.recvQueue).1,
        errLogs := st.errLogs + (drainRecv t u.recvQueue).2.1 }, chan)) := by
  refine ⟨drainRecv_all_ok, ?_, ?_⟩
  · intro st t u h0 h1
    simp [mainHandleEvent, h0, h1]
  · intro n re de s a st chan t u h0 h1
    simp [subHandleEvent, h0, h1]

/-- Witness for C3: two datagrams queued on main socket 0 (token 1) are both
delivered, in order, with their exact payloads and index 0. -/
theorem drain_completeness_witness :
    mainHandleEvent ⟨[⟨5, [RecvResult.ok [9, 8] ⟨1, 2⟩, RecvResult.ok [7] ⟨3, 4⟩]⟩], [], 0⟩ 1 =
      .cont ⟨[⟨5, []⟩],
        [⟨[9, 8], RouteKey.new false 0 ⟨1, 2⟩⟩, ⟨[7], RouteKey.new false 0 ⟨3, 4⟩⟩], 0⟩ := by
  have h := drain_completeness.2.1
    ⟨[⟨5, [RecvResult.ok [9, 8] ⟨1, 2⟩, RecvResult.ok [7] ⟨3, 4⟩]⟩], [], 0⟩ 1
    ⟨5, [RecvResult.ok [9, 8] ⟨1, 2⟩, RecvResult.ok [7] ⟨3, 4⟩]⟩ (by decide) rfl
  exact h

/-- C7: transient receive errors are non-fatal. A non-would-block error is
logged and the drain continues (the datagrams delivered are exactly those
delivered without the error); only would-block exits the inner loop; and a
data-token readiness event never makes either reactor's loop function
return. -/
theorem recv_errors_nonfatal :
    (∀ i rest, drainRecv i (RecvResult.err false :: rest) =
        ((drainRecv i rest).1, (drainRecv i rest).2.1 + 1, (drainRecv i rest).2.2)) ∧
    (∀ i rest, drainRecv i (RecvResult.err true :: rest) = ([], 0, rest)) ∧
    (∀ i q₁ q₂, (drainRecv i (q₁ ++ RecvResult.err false :: q₂)).1 =
        (drainRecv i (q₁ ++ q₂)).1) ∧
    (∀ (st : MainState) t u, t ≠ NOTIFY → st.udps[t - 1]? = some u →
        ∃ st', mainHandleEvent st t = .cont st') ∧
    (∀ n re de s a (st : SubState) chan t, t ≠ NOTIFY →
        ∃ st', subHandleEvent n re de s a st chan t = (.cont st', chan)) := by
  refine ⟨fun i rest => rfl, fun i rest => rfl, ?_, ?_, ?_⟩
  · intro i q₁ q₂
    induction q₁ with
    | nil => simp [drainRecv]
    | cons hd rest ih =>
      cases hd with
      | ok p a => simp [drainRecv, ih]
      | err wb =>
        cases wb
        · simp [drainRecv, ih]
        · simp [drainRecv]
  · intro st t u h0 h1
    exact ⟨{ st with
      udps := st.udps.set (t - 1) { u with recvQueue := (drainRecv (t - 1) u.recvQueue).2.2 },
      calls := st.calls ++ (drainRecv (t - 1) u.recvQueue).1,
      errLogs := st.errLogs + (drainRecv (t - 1) u.recvQueue).2.1 },
      by simp [mainHandleEvent, h0, h1]⟩
  · intro n re de s a st chan t h0
    cases h1 : mapGet t st.readMap with
    | none => exact ⟨st, by simp [subHandleEvent, h0, h1]⟩
    | some u =>
      exact ⟨{ st with
        readMap := mapInsert t { u with recvQueue := (drainRecv t u.recvQueue).2.2 } st.readMap,
        calls := st.calls ++ (drainRecv t u.recvQueue).1,
        errLogs := st.errLogs + (drainRecv t u.recvQueue).2.1 },
        by simp [subHandleEvent, h0, h1]⟩

/-- Witness for C7: a non-would-block error between two datagrams does not
lose either of them, and the event still continues the loop. -/
theorem recv_errors_nonfatal_witness :
    (drainRecv 4 ([RecvResult.ok [1] ⟨0, 0⟩] ++ RecvResult.err false ::
        [RecvResult.ok [2] ⟨0, 0⟩])).1 =
      (drainRecv 4 ([RecvResult.ok [1] ⟨0, 0⟩] ++ [RecvResult.ok [2] ⟨0, 0⟩])).1 ∧
    ∃ st', subHandleEvent 1 (fun _ => none) (fun _ => false) false false emptySub [] 3 =
      (.cont st', []) :=
  ⟨recv_errors_nonfatal.2.2.1 4 [RecvResult.ok [1] ⟨0, 0⟩] [RecvResult.ok [2] ⟨0, 0⟩],
   recv_errors_nonfatal.2.2.2.2 1 (fun _ => none) (fun _ => false) false false emptySub [] 3
     (by decide)⟩

/-- C9: the control channel is created with capacity exactly 64
(`sync_channel(64)`), and the update-intent drain applies every dequeued
message in enqueue order (it equals the in-order fold of `applyMsg`) and, on
success, leaves the channel empty. -/
theorem control_channel_drain (n : Nat) (re : Nat → Option Nat) (de : Nat → Bool) :
    controlChannelCapacity = 64 ∧
    (∀ st chan, (drainChannel n re de st chan).1 = applyAll n re de st chan) ∧
    (∀ st chan st', (drainChannel n re de st chan).1 = .ok st' →
        (drainChannel n re de st chan).2 = []) := by
  refine ⟨rfl, ?_, ?_⟩
  · intro st chan
    induction chan generalizing st with
    | nil => rfl
    | cons m rest ih =>
      simp only [drainChannel, applyAll, List.foldlM_cons]
      cases h : applyMsg n re de st m with
      | error e => rfl
      | ok st' => exact ih st'
  · intro st chan
    induction chan generalizing st with
    | nil => intro st' _; rfl
    | cons m rest ih =>
      intro st' h
      simp only [drainChannel] at h ⊢
      cases hm : applyMsg n re de st m with
      | error e =>
        rw [hm] at h
        exact Except.noConfusion h
      | ok st₂ =>
        rw [hm] at h
        exact ih st₂ st' h

/-- Witness for C9: draining a one-message channel succeeds and leaves it
empty. -/
theorem control_channel_drain_witness :
    (drainChannel 1 (fun _ => none) (fun _ => false) emptySub [none]).2 = [] :=
  (control_channel_drain 1 (fun _ => none) (fun _ => false)).2.2 emptySub [none]
    (deregisterAll (fun _ => false) emptySub) rfl

/-- C8: whenever a reactor loop function returns — with an error or `Ok` —
the spawning thread calls `stop_all`, which runs every registered cleanup
callback (all of them are appended to the run log); in particular, if the sub
reactor's listener is registered, its notifier's stop flag is set and its
waker fired, so the sub reactor receives a stop signal. -/
theorem cascade_shutdown (loopResult : Except Nat Unit) (registry : List Callback)
    (s : SystemState) (h : Callback.fireSubStop ∈ registry) :
    ((reactorThreadFinish loopResult registry s).1).ran = s.ran ++ registry ∧
    ((reactorThreadFinish loopResult registry s).1).subStopFlag = true ∧
    ((reactorThreadFinish loopResult registry s).1).subWoken = true := by
  refine ⟨stopAll_ran registry s, ?_, ?_⟩
  · exact (stopAll_mem_fireSubStop registry s h).1
  · exact (stopAll_mem_fireSubStop registry s h).2

/-- Witness for C8: a main-reactor failure (loop result `Err(5)`) with the
sub listener registered sets the sub stop flag. -/
theorem cascade_shutdown_witness :
    ((reactorThreadFinish (.error 5) [Callback.fireSubStop, Callback.wakeMain]
        ⟨false, false, false, []⟩).1).subStopFlag = true :=
  (cascade_shutdown (.error 5) [Callback.fireSubStop, Callback.wakeMain]
    ⟨false, false, false, []⟩ (by decide)).2.1

/-- C6 counterexample: a deregistration failure does NOT exit the reactor
loop. With an oracle making every deregister fail, applying a `None` message
to a one-socket map returns `Ok` — the error is merely logged (errLogs
becomes 1) and the map is still emptied — contradicting the claim that any
deregistration error makes the loop function exit with the error. -/
theorem dereg_error_nonfatal_cex :
    applyMsg 1 (fun _ => none) (fun _ => true) ⟨[(1, ⟨5, []⟩)], [], [], [], 0⟩ none =
      .ok ⟨[], [], [5], [], 1⟩ := rfl

/-- C6 amended: registration errors are fatal — any failing `try_clone`,
`set_nonblocking` or `register` in the main reactor's setup makes it return
the error, and a failing `register` while applying `Some(list)` in the sub
reactor propagates the error out through the drain, making the loop exit
with `Err` — whereas a deregistration error is logged and the loop
continues: the `None` branch always succeeds. -/
theorem registration_fatal_dereg_nonfatal :
    (∀ ce ne re socks j regs, mainRegister ce ne re socks j = .ok regs →
        ∀ u ∈ socks, ce u.sid = none ∧ ne u.sid = none ∧ re u.sid = none) ∧
    (∀ ce ne re (u : UdpSocket) rest j e, ce u.sid = none → ne u.sid = none →
        re u.sid = some e → mainRegister ce ne re (u :: rest) j = .error e) ∧
    (∀ n re st list j st', registerSockets n re st list j = .ok st' →
        ∀ u ∈ list, re u.sid = none) ∧
    (∀ n re st (u : UdpSocket) rest j e, re u.sid = some e →
        registerSockets n re st (u :: rest) j = .error e) ∧
    (∀ n re de st chan e rest, drainChannel n re de st chan = (.error e, rest) →
        subHandleEvent n re de false true st chan NOTIFY = (.exitErr st e, rest)) ∧
    (∀ n re de st, applyMsg n re de st none = .ok (deregisterAll de st)) := by
  refine ⟨?_, ?_, ?_, ?_, ?_, fun n re de st => rfl⟩
  · intro ce ne re socks
    induction socks with
    | nil =>
      intro j regs _ u hu
      simp at hu
    | cons v rest ih =>
      intro j regs h u hu
      simp only [mainRegister] at h
      cases hce : ce v.sid with
      | some e => rw [hce] at h; exact Except.noConfusion h
      | none =>
        rw [hce] at h
        cases hne : ne v.sid with
        | some e => rw [hne] at h; exact Except.noConfusion h
        | none =>
          rw [hne] at h
          cases hre : re v.sid with
          | some e => rw [hre] at h; exact Except.noConfusion h
          | none =>
            rw [hre] at h
            cases hrec : mainRegister ce ne re rest (j + 1) with
            | error e => rw [hrec] at h; exact Except.noConfusion h
            | ok tl =>
              rcases List.mem_cons.mp hu with rfl | hmem
              · exact ⟨hce, hne, hre⟩
              · exact ih (j + 1) tl hrec u hmem
  · intro ce ne re u rest j e hce hne hre
    simp [mainRegister, hce, hne, hre]
  · intro n re st list
    induction list generalizing st with
    | nil =>
      intro j st' _ u hu
      simp at hu
    | cons v rest ih =>
      intro j st' h u hu
      simp only [registerSockets] at h
      cases hre : re v.sid with
      | some e => rw [hre] at h; exact Except.noConfusion h
      | none =>
        rw [hre] at h
        rcases List.mem_cons.mp hu with rfl | hmem
        · exact hre
        · exact ih _ (j + 1) st' h u hmem
  · intro n re st u rest j e hre
    simp [registerSockets, hre]
  · intro n re de st chan e rest h
    simp [subHandleEvent, NOTIFY, h]

/-- Witness for C6 (amended): a failing registration of the first socket of a
`Some(list)` propagates the exact error out of the sub reactor's update
handling. -/
theorem registration_fatal_dereg_nonfatal_witness :
    registerSockets 1 (fun _ => some 9) emptySub [⟨5, []⟩] 0 = .error 9 ∧
    subHandleEvent 1 (fun _ => some 9) (fun _ => false) false true emptySub
        [some [⟨5, []⟩]] NOTIFY = (.exitErr emptySub 9, []) :=
  ⟨registration_fatal_dereg_nonfatal.2.2.2.1 1 (fun _ => some 9) emptySub ⟨5, []⟩ [] 0 9 rfl,
   registration_fatal_dereg_nonfatal.2.2.2.2.1 1 (fun _ => some 9) (fun _ => false) emptySub
     [some [⟨5, []⟩]] 9 [] rfl⟩

/-- C1: index disjointness. The i-th main socket is registered under token
`i + 1` and a delivered main-reactor datagram carries index `token - 1`,
which lies in `[0, mainCount)`; after a single `Some(list)` of k sockets
applied to an empty sub-reactor map, the i-th socket of the list sits under
token `i + channel_num()`, exactly the tokens `[mainCount, mainCount + k)`
are present, and a delivered sub-reactor datagram carries the token itself
as its index, lying in `[mainCount, mainCount + k)`; the two index ranges
are disjoint. -/
theorem index_disjointness
    (n k : Nat) (mainSocks subSocks : List UdpSocket)
    (ce ne re re2 : Nat → Option Nat) (de : Nat → Bool)
    (regs : List (Nat × UdpSocket)) (st' : SubState)
    (hm : mainSocks.length = n) (hk : subSocks.length = k)
    (hreg : mainRegister ce ne re mainSocks 0 = .ok regs)
    (hsub : applyMsg n re2 de emptySub (some subSocks) = .ok st') :
    regs.map Prod.fst = (List.range n).map (fun i => i + 1) ∧
    (∀ t ∈ regs.map Prod.fst, (0 < t ∧ t - 1 < n) ∧
      ∀ (st : MainState) u, st.udps[t - 1]? = some u →
        ∃ stA, mainHandleEvent st t = .cont stA ∧
          stA.calls = st.calls ++ (drainRecv (t - 1) u.recvQueue).1 ∧
          ∀ c ∈ (drainRecv (t - 1) u.recvQueue).1, c.key.index = t - 1) ∧
    (∀ i, i < k → mapGet (i + n) st'.readMap = subSocks.get? i) ∧
    (∀ t, (mapGet t st'.readMap).isSome = true ↔ (n ≤ t ∧ t < n + k)) ∧
    (∀ t u, mapGet t st'.readMap = some u → t ≠ NOTIFY →
      ∀ chan s a, ∃ stB, subHandleEvent n re2 de s a st' chan t = (.cont stB, chan) ∧
        stB.calls = st'.calls ++ (drainRecv t u.recvQueue).1 ∧
        ∀ c ∈ (drainRecv t u.recvQueue).1,
          c.key.index = t ∧ n ≤ c.key.index ∧ c.key.index < n + k) ∧
    (∀ i j, i < n → n ≤ j → i ≠ j) := by
  have htok := (mainRegister_ok_tokens ce ne re mainSocks 0 regs hreg).1
  rw [hm] at htok
  simp only [Nat.add_zero] at htok
  have hsub' : registerSockets n re2 emptySub subSocks 0 = .ok st' := hsub
  have hchar := fun t => registerSockets_ok_mapGet n re2 st' t subSocks emptySub 0 hsub'
  refine ⟨htok, ?_, ?_, ?_, ?_, ?_⟩
  · intro t htmem
    rw [htok] at htmem
    simp only [List.mem_map, List.mem_range] at htmem
    obtain ⟨i, hi, rfl⟩ := htmem
    refine ⟨⟨Nat.succ_pos i, by omega⟩, ?_⟩
    intro st u hu
    refine ⟨{ st with
      udps := st.udps.set (i + 1 - 1) { u with recvQueue := (drainRecv (i + 1 - 1) u.recvQueue).2.2 },
      calls := st.calls ++ (drainRecv (i + 1 - 1) u.recvQueue).1,
      errLogs := st.errLogs + (drainRecv (i + 1 - 1) u.recvQueue).2.1 }, ?_, rfl, ?_⟩
    · simp only [Nat.add_sub_cancel] at hu
      simp [mainHandleEvent, NOTIFY, hu]
    · intro c hc
      exact drainRecv_calls_index (i + 1 - 1) u.recvQueue c hc
  · intro i hik
    have h := hchar (i + n)
    rw [if_pos (by omega : 0 + n ≤ i + n ∧ i + n < 0 + n + subSocks.length)] at h
    rw [h]
    congr 1
    omega
  · intro t
    have h := hchar t
    constructor
    · intro hs
      by_cases hc : 0 + n ≤ t ∧ t < 0 + n + subSocks.length
      · omega
      · rw [if_neg hc] at h
        rw [h] at hs
        simp [mapGet, emptySub] at hs
    · intro hnt
      have hc : 0 + n ≤ t ∧ t < 0 + n + subSocks.length := by omega
      rw [if_pos hc] at h
      rw [h]
      cases hq : subSocks.get? (t - (0 + n)) with
      | none =>
        exfalso
        have := List.get?_eq_none.mp hq
        omega
      | some v => rfl
  · intro t u hmg ht0 chan s a
    have h := hchar t
    by_cases hc : 0 + n ≤ t ∧ t < 0 + n + subSocks.length
    · refine ⟨{ st' with
        readMap := mapInsert t { u with recvQueue := (drainRecv t u.recvQueue).2.2 } st'.readMap,
        calls := st'.calls ++ (drainRecv t u.recvQueue).1,
        errLogs := st'.errLogs + (drainRecv t u.recvQueue).2.1 }, ?_, rfl, ?_⟩
      · simp [subHandleEvent, ht0, hmg]
      · intro c hc2
        have hidx := drainRecv_calls_index t u.recvQueue c hc2
        exact ⟨hidx, by omega, by omega⟩
    · exfalso
      rw [if_neg hc] at h
      rw [hmg] at h
      simp [mapGet, emptySub] at h
  · intro i j h1 h2
    omega

/-- Witness for C1: with two main sockets and one extra socket, the extra
socket's map token is `0 + channel_num() = 2`. -/
theorem index_disjointness_witness :
    mapGet (0 + 2) [(2, (⟨3, []⟩ : UdpSocket))] = [(⟨3, []⟩ : UdpSocket)].get? 0 := by
  have h := (index_disjointness 2 1 [⟨1, []⟩, ⟨2, []⟩] [⟨3, []⟩]
    (fun _ => none) (fun _ => none) (fun _ => none) (fun _ => none) (fun _ => false)
    [(1, ⟨1, []⟩), (2, ⟨2, []⟩)] ⟨[(2, ⟨3, []⟩)], [3], [], [], 0⟩
    rfl rfl rfl rfl).2.2.1 0 (by decide)
  exact h

end VntUdp
